import Mathlib

set_option maxRecDepth 8000

/-!
Verification of the album-catalog core of the photography-portfolio repository.

The definitions below are a shallow embedding of the Python sources:
  photography/utils/album_manager.py   (AlbumManager: create/delete/add/remove/list/update)
  photography/utils/image_processor.py (ImageProcessor: responsive derivation pipeline)
  photography/utils/process_staging.py (staging cover-hint resolution)
  photography/utils/create_album.py    (legacy script: update_albums_json, delete_album)
  photography/utils/config.py          (RESPONSIVE_SIZES)

Filesystem effects are modelled as explicit state: the catalog (the parsed
contents of albums.json), the set of album directories, and the set of
image files on disk.  Per-image decode success is modelled by an optional
dimensions field on the source file, since actual image decoding is an
external I/O effect.  Failure-injection booleans model external I/O checks
(template present, image directory readable, json save succeeding) at the
exact program points where the Python code can raise.
-/

/-- One size variant of an image, as stored in albums.json:
`{"webp": path, "width": w, "height": h}`. -/
structure SizeVariant where
  webp : String
  width : Nat
  height : Nat
deriving DecidableEq

/-- The four required size variants of an image (config.py RESPONSIVE_SIZES keys). -/
structure Sizes where
  grid : SizeVariant
  small : SizeVariant
  medium : SizeVariant
  large : SizeVariant
deriving DecidableEq

/-- An image entry of an album: `{"id": stem, "sizes": {...}}`. -/
structure ImageMeta where
  id : String
  sizes : Sizes
deriving DecidableEq

/-- An album record of albums.json.  `coverImage = none` models the empty
dict `{}` that delete_images writes when no image remains. -/
structure Album where
  id : String
  title : String
  description : String
  date : String
  favorite : Bool
  coverImage : Option SizeVariant
  images : List ImageMeta
deriving DecidableEq

/-- The mutable state AlbumManager operates on: the `albums` array of
albums.json, the album directories under `albums/`, and the on-disk
image files, each keyed by (albumId, path relative to the album dir). -/
structure Store where
  albums : List Album
  dirs : List String
  files : List (String × String)
deriving DecidableEq

/-- config.py RESPONSIVE_SIZES: name, target width, webp quality. -/
def RESPONSIVE_SIZES : List (String × Nat × Nat) :=
  [("grid", 400, 85), ("small", 800, 85), ("medium", 1200, 85), ("large", 1600, 85)]

/-- Python `Path(name).stem`: the file name without its last suffix.
A dot at position 0 or at the very end does not start a suffix. -/
def stemOf (name : String) : String :=
  let cs := name.data
  match cs.reverse.findIdx? (fun c => c = '.') with
  | none => name
  | some j =>
    let i := cs.length - 1 - j
    if 0 < i ∧ i < cs.length - 1 then String.mk (cs.take i) else name

/-- image_processor.py: `base_name = source_path.stem.split('.')[0]`,
i.e. everything before the first dot of the file name. -/
def baseNameOf (name : String) : String :=
  String.mk (name.data.takeWhile (fun c => c ≠ '.'))

/-- Round n/d to the nearest integer, ties to even (for d > 0). -/
def rne (n d : Nat) : Nat :=
  let q := n / d
  let r := n % d
  if 2 * r < d then q
  else if d < 2 * r then q + 1
  else if q % 2 = 0 then q else q + 1

/-- Floor of log2 by fuel-bounded halving; the fuel 512 covers every
magnitude the binary64 model below is applied to. -/
def log2Aux : Nat → Nat → Nat
  | 0, _ => 0
  | fuel + 1, n => if 2 ≤ n then log2Aux fuel (n / 2) + 1 else 0

/-- Floor of log2 (kernel-computable). -/
def natLog2 (n : Nat) : Nat := log2Aux 512 n

/-- The binary exponent e with 2^(e-1) ≤ n/d < 2^e, for a positive
rational n/d in the binary64 normal range. -/
def ratExp (n d : Nat) : Int := (natLog2 (n * 2 ^ 128 / d) : Int) - 127

/-- The positive rational n/d correctly rounded to a binary64 value,
returned as a pair (m, e) denoting m * 2^(e-53) with 2^52 ≤ m < 2^53
(round to nearest, ties to even): CPython's `n / d` on two ints. -/
def roundRat (n d : Nat) : Nat × Int :=
  let e := ratExp n d
  let m := if 0 ≤ 53 - e then rne (n * 2 ^ (53 - e).toNat) d
           else rne n (d * 2 ^ (e - 53).toNat)
  if m = 2 ^ 53 then (2 ^ 52, e + 1) else (m, e)

/-- The exact integer a (a < 2^53) times the binary64 value (m, e),
correctly rounded back to binary64: CPython's `float(a) * x`. -/
def mulRound (a : Nat) (me : Nat × Int) : Nat × Int :=
  let K := a * me.1
  let j := natLog2 K
  let e2 : Int := (j : Int) + 1 + (me.2 - 53)
  let m2 := if j + 1 ≤ 53 then K * 2 ^ (53 - (j + 1))
            else rne K (2 ^ (j + 1 - 53))
  if m2 = 2 ^ 53 then (2 ^ 52, e2 + 1) else (m2, e2)

/-- Truncation toward zero of the positive binary64 value (m, e):
CPython's `int(x)` for x ≥ 0. -/
def truncDouble (me : Nat × Int) : Nat :=
  if 53 ≤ me.2 then me.1 * 2 ^ (me.2 - 53).toNat
  else me.1 / 2 ^ (53 - me.2).toNat

/-- image_processor.py height arithmetic, exactly as CPython evaluates it:
`w_percent = width / orig_width` is a correctly rounded binary64 quotient,
`float(orig_height) * w_percent` a correctly rounded binary64 product, and
`int(...)` truncates toward zero.  Exact whenever the values stay in the
binary64 normal range, which holds for all image dimensions; the integer
algorithm was cross-checked against CPython's float arithmetic on the
inputs appearing below and on large systematic sweeps. -/
def fpScaledHeight (origH targetW origW : Nat) : Nat :=
  if origH = 0 ∨ targetW = 0 ∨ origW = 0 then 0
  else truncDouble (mulRound origH (roundRat targetW origW))

/-- image_processor.py _create_responsive_versions, dimension logic for one
target width: `w_percent = width/orig_width; height = int(orig_height*w_percent)`;
scale only when `w_percent < 1` (i.e. targetW < origW), else keep the
original dimensions.  The scaled height is the binary64 truncation
fpScaledHeight. -/
def scaleDims (origW origH targetW : Nat) : Nat × Nat :=
  if targetW < origW then (targetW, fpScaledHeight origH targetW origW)
  else (origW, origH)

/-- The size variant written for one configured size: deterministic path
`images/<size>/<baseName>.webp` plus the declared dimensions. -/
def mkVariant (baseName sizeName : String) (origW origH targetW : Nat) : SizeVariant :=
  let d := scaleDims origW origH targetW
  { webp := "images/" ++ sizeName ++ "/" ++ baseName ++ ".webp"
    width := d.1
    height := d.2 }

/-- image_processor.py _create_responsive_versions over the four configured
sizes of config.py (grid 400, small 800, medium 1200, large 1600). -/
def createResponsiveVersions (baseName : String) (origW origH : Nat) : Sizes :=
  { grid := mkVariant baseName "grid" origW origH 400
    small := mkVariant baseName "small" origW origH 800
    medium := mkVariant baseName "medium" origW origH 1200
    large := mkVariant baseName "large" origW origH 1600 }

/-- A candidate source file handed to the pipeline.  `dims = some (w, h)`
means the file decodes to a w x h image; `dims = none` means
process_single_image raises on it (corrupt / undecodable file). -/
structure SourceFile where
  name : String
  dims : Option (Nat × Nat)
deriving DecidableEq

/-- image_processor.py process_single_image: returns the image metadata
`{"id": stem, "sizes": ...}` on success, propagates the failure otherwise. -/
def process_single_image (f : SourceFile) : Option ImageMeta :=
  f.dims.map (fun d =>
    { id := stemOf f.name, sizes := createResponsiveVersions (baseNameOf f.name) d.1 d.2 })

/-- image_processor.py process_album: every file is processed; a per-image
failure is logged and skipped, a success is recorded in `self.metadata`
keyed by the file name, in the order results are collected. -/
def process_album : List SourceFile → List (String × ImageMeta)
  | [] => []
  | f :: rest =>
    match process_single_image f with
    | some m => (f.name, m) :: process_album rest
    | none => process_album rest

/-- Dict lookup on the metadata mapping built by process_album. -/
def mdLookup : List (String × ImageMeta) → String → Option ImageMeta
  | [], _ => none
  | (n, m) :: rest, k => if n = k then some m else mdLookup rest k

/-- Stable ordered insert: place `x` after every element `y` it does not
strictly precede (`before x y = false`), so equal keys keep their
original relative order, exactly like Python's stable sort. -/
def insertOrd (before : α → α → Bool) (x : α) : List α → List α
  | [] => [x]
  | y :: ys => if before x y then x :: y :: ys else y :: insertOrd before x ys

/-- Stable insertion sort, processing the input left to right. -/
def sortOrd (before : α → α → Bool) (l : List α) : List α :=
  l.foldl (fun acc x => insertOrd before x acc) []

/-- Lexicographic comparison of char lists by code point, the order Python
uses for strings (and the same order as Lean's String.lt), written as a
structurally recursive Bool so that it evaluates inside the kernel. -/
def strLtB : List Char → List Char → Bool
  | [], [] => false
  | [], _ :: _ => true
  | _ :: _, [] => false
  | a :: as, b :: bs =>
    if a.toNat < b.toNat then true
    else if b.toNat < a.toNat then false
    else strLtB as bs

/-- Python string comparison `a < b` (code-point lexicographic). -/
def strLt (a b : String) : Bool := strLtB a.data b.data

/-- `sorted(image_files)` of image_processor.py process_directory: the
candidate files in lexicographic filename order (all files live in one
directory, so path order is filename order). -/
def sortByName (files : List SourceFile) : List SourceFile :=
  sortOrd (fun a b => strLt a.name b.name) files

/-- image_processor.py process_directory, with the order in which the
parallel workers' results are recorded made explicit as `arrival`
(in the Python code the thread pool may complete futures in any order;
results land in the name-keyed `self.metadata` dict).  The returned list
follows the sorted file list, not the arrival order. -/
def process_directory_arr (files arrival : List SourceFile) : List ImageMeta :=
  let md := process_album arrival
  (sortByName files).filterMap (fun f => mdLookup md f.name)

/-- image_processor.py process_directory as written: results are collected
by iterating the futures in submission order, i.e. sorted order. -/
def process_directory (files : List SourceFile) : List ImageMeta :=
  process_directory_arr files (sortByName files)

/-- Python truthiness of an optional string (`if cover_image:`):
false for `None` and for the empty string. -/
def strOptTruthy : Option String → Bool
  | none => false
  | some s => !s.isEmpty

/-- album_manager.py create_album, cover handling (lines 65-78): a truthy
hint must match the stem of a processed image id or the whole create
raises; without a hint the first processed image is used. -/
def resolveCover (processed : List ImageMeta) : Option String → Option ImageMeta
  | some c =>
    if c.isEmpty then processed.head?
    else processed.find? (fun im => im.id = stemOf c)
  | none => processed.head?

/-- `shutil.rmtree(album_dir)`: the directory and every file inside it
disappear from the filesystem state. -/
def rmtreeAlbum (st : Store) (name : String) : Store :=
  { st with dirs := st.dirs.filter (fun d => d ≠ name)
            files := st.files.filter (fun p => p.1 ≠ name) }

/-- album_manager.py create_album (lines 24-101).  Control flow mirrors the
source: directory-exists check, image-dir check, mkdir, template copy,
image processing, empty-result check, cover resolution, validation,
catalog update with duplicate-id check and save.  Any raise lands in the
`except` handler, which removes the album directory when it exists and
returns False.  `imageDirOk`, `templateOk`, `validationOk` and `saveOk`
inject the external I/O checks at the program points where the code can
raise; `processed` is the result of ImageProcessor.process_directory. -/
def create_album (st : Store) (albumName title date descr : String)
    (imageDirOk templateOk : Bool) (processed : List ImageMeta)
    (coverHint : Option String) (validationOk saveOk : Bool) : Bool × Store :=
  if albumName ∈ st.dirs then
    -- raise "Album directory already exists"; the handler still rmtrees it
    (false, rmtreeAlbum st albumName)
  else if !imageDirOk then
    -- raise "Image directory does not exist"; album dir was never created
    (false, st)
  else
    if !templateOk then
      (false, rmtreeAlbum { st with dirs := st.dirs ++ [albumName] } albumName)
    else if processed.isEmpty then
      (false, rmtreeAlbum { st with dirs := st.dirs ++ [albumName] } albumName)
    else
      match resolveCover processed coverHint with
      | none =>
        (false, rmtreeAlbum { st with dirs := st.dirs ++ [albumName] } albumName)
      | some coverMeta =>
        if !validationOk then
          (false, rmtreeAlbum { st with dirs := st.dirs ++ [albumName] } albumName)
        else if st.albums.any (fun a => a.id = albumName) then
          (false, rmtreeAlbum { st with dirs := st.dirs ++ [albumName] } albumName)
        else if !saveOk then
          (false, rmtreeAlbum { st with dirs := st.dirs ++ [albumName] } albumName)
        else
          (true,
           { albums := st.albums ++
               [{ id := albumName, title := title, description := descr,
                  date := date, favorite := false,
                  coverImage := some coverMeta.sizes.grid, images := processed }]
             dirs := st.dirs ++ [albumName]
             files := st.files })

/-- album_manager.py delete_album (lines 103-129): raise (and return False)
when the id is not in the catalog; otherwise rmtree the album directory
if present, drop the entry and save. -/
def delete_album (st : Store) (albumId : String) : Bool × Store :=
  if st.albums.any (fun a => a.id = albumId) then
    let st1 := if albumId ∈ st.dirs then rmtreeAlbum st albumId else st
    (true, { st1 with albums := st1.albums.filter (fun a => a.id ≠ albumId) })
  else
    (false, st)

/-- The grid variant of the first image of the list, or none when empty:
the cover value delete_images maintains. -/
def headGrid (l : List ImageMeta) : Option SizeVariant :=
  l.head?.map (fun im => im.sizes.grid)

/-- Loop state of album_manager.py delete_images: the album's in-memory
images list and cover, the files on disk, and the accumulated success flag. -/
structure DelState where
  images : List ImageMeta
  cover : Option SizeVariant
  files : List (String × String)
  success : Bool
deriving DecidableEq

/-- Unlink the four size-variant files of one image (lines 203-207). -/
def removeSizeFiles (files : List (String × String)) (albumId : String)
    (s : Sizes) : List (String × String) :=
  files.filter (fun p =>
    p ≠ (albumId, s.grid.webp) ∧ p ≠ (albumId, s.small.webp) ∧
    p ≠ (albumId, s.medium.webp) ∧ p ≠ (albumId, s.large.webp))

/-- One iteration of the delete_images loop (lines 194-223).  A missing id
only clears the success flag.  For a found image the files are unlinked
first; then `album['coverImage']['webp']` is read - when the cover is the
empty dict this raises KeyError, which the inner handler turns into
success = False with the image still in the list.  Otherwise the cover is
reassigned when it matches the removed image's grid path, and the image
is filtered out of the list. -/
def delete_one (albumId : String) (ds : DelState) (imageId : String) : DelState :=
  match ds.images.find? (fun im => im.id = imageId) with
  | none => { ds with success := false }
  | some target =>
    let files' := removeSizeFiles ds.files albumId target.sizes
    match ds.cover with
    | none => { ds with files := files', success := false }
    | some cv =>
      let remaining := ds.images.filter (fun im => im.id ≠ imageId)
      let cover' :=
        if cv.webp = target.sizes.grid.webp then headGrid remaining
        else some cv
      { images := remaining, cover := cover', files := files', success := ds.success }

/-- Replace the first album with the given id (the Python code mutates the
dict found by `next(...)` in place). -/
def updateFirst (f : Album → Album) (albumId : String) : List Album → List Album
  | [] => []
  | a :: rest => if a.id = albumId then f a :: rest else a :: updateFirst f albumId rest

/-- album_manager.py delete_images (lines 175-231): look up the album and
its directory, run the per-id loop, always save the mutated data, return
the accumulated success flag. -/
def delete_images (st : Store) (albumId : String) (imageIds : List String) :
    Bool × Store :=
  match st.albums.find? (fun a => a.id = albumId) with
  | none => (false, st)
  | some album =>
    if albumId ∈ st.dirs then
      let ds := imageIds.foldl (delete_one albumId)
        { images := album.images, cover := album.coverImage,
          files := st.files, success := true }
      (ds.success,
        { st with
            albums := updateFirst
              (fun a => { a with images := ds.images, coverImage := ds.cover })
              albumId st.albums
            files := ds.files })
    else
      (false, st)

/-- album_manager.py list_albums (lines 233-240):
`sorted(albums, key=lambda x: x['date'], reverse=True)` - a stable sort on
the date string, newest first; favorite plays no role. -/
def list_albums (albums : List Album) : List Album :=
  sortOrd (fun a b => strLt b.date a.date) albums

/-- State touched by the legacy script create_album.py delete_album
(lines 396-441): catalog, album directories, album HTML files. -/
structure ScriptFs where
  albums : List Album
  dirs : List String
  htmls : List String
deriving DecidableEq

/-- create_album.py delete_album: each of the three cleanups (catalog entry,
directory, `<id>.html`) sets the success flag if it removed something;
a name found nowhere yields False. -/
def delete_album_script (fs : ScriptFs) (name : String) : Bool × ScriptFs :=
  let removedJson := fs.albums.any (fun a => a.id = name)
  let albums' := if removedJson then fs.albums.filter (fun a => a.id ≠ name)
                 else fs.albums
  let hadDir := name ∈ fs.dirs
  let dirs' := fs.dirs.filter (fun d => d ≠ name)
  let htmlName := name ++ ".html"
  let hadHtml := htmlName ∈ fs.htmls
  let htmls' := fs.htmls.filter (fun h => h ≠ htmlName)
  (removedJson || hadDir || hadHtml, { albums := albums', dirs := dirs', htmls := htmls' })

/-- The albums.json file with the backup copies that exist next to it.
album_manager.py never writes any backup; the field records every backup
copy ever made so that the save behaviour is observable. -/
structure JsonFs where
  albumsFile : Option (List Album)
  backups : List (List Album)
deriving DecidableEq

/-- album_manager.py _save_albums_json (lines 312-315):
`open(self.albums_json, 'w'); json.dump(data, f)` - the file is rewritten
in place; no backup copy is made and no temporary-file rename happens. -/
def save_albums_json (fs : JsonFs) (data : List Album) : JsonFs :=
  { albumsFile := some data, backups := fs.backups }

/-- process_staging.py, cover resolution (lines 147-166): an explicit (truthy)
cover_image from metadata.json wins; otherwise a cover_index k is turned
into the stem of the (k-1)-th entry of the sorted candidate-file list when
k-1 is in range, and is logged and dropped otherwise (cover_image keeps
its falsy value). -/
def resolve_cover_hint (metaCover : Option String) (metaIndex : Option Int)
    (files : List SourceFile) : Option String :=
  if strOptTruthy metaCover then metaCover
  else
    match metaIndex with
    | some k =>
      let sorted := sortByName files
      let idx := k - 1
      if 0 ≤ idx ∧ idx < (sorted.length : Int) then
        match sorted[idx.toNat]? with
        | some f => some (stemOf f.name)
        | none => metaCover
      else metaCover
    | none => metaCover

/-! Concrete example data used by counterexamples and witnesses. -/

/-- A sample size variant for image `s`. -/
def exVariant (size s : String) : SizeVariant :=
  { webp := "images/" ++ size ++ "/" ++ s ++ ".webp", width := 400, height := 300 }

/-- Sample sizes dict for image `s`. -/
def exSizes (s : String) : Sizes :=
  { grid := exVariant "grid" s, small := exVariant "small" s,
    medium := exVariant "medium" s, large := exVariant "large" s }

/-- Sample image `a`. -/
def exImgA : ImageMeta := { id := "a", sizes := exSizes "a" }

/-- Sample image `b`. -/
def exImgB : ImageMeta := { id := "b", sizes := exSizes "b" }

/-- A sample album holding images `a` and `b`, with `a`'s grid variant as cover. -/
def exAlbum : Album :=
  { id := "alb", title := "Test", description := "", date := "2024-01-01",
    favorite := false, coverImage := some (exSizes "a").grid, images := [exImgA, exImgB] }

/-- A sample store holding `exAlbum`, its directory and its files. -/
def exStore : Store :=
  { albums := [exAlbum], dirs := ["alb"],
    files := [("alb", "images/grid/a.webp"), ("alb", "images/small/a.webp"),
              ("alb", "images/grid/b.webp")] }

/-- The empty store. -/
def emptyStore : Store := { albums := [], dirs := [], files := [] }

/-- Fixture batch of three staged files, unsorted, one corrupt. -/
def exFiles3 : List SourceFile :=
  [⟨"b.jpg", some (800, 600)⟩, ⟨"c.jpg", some (2000, 1000)⟩, ⟨"a.jpg", none⟩]

/-- The same batch in a different worker-arrival order. -/
def exArr3 : List SourceFile :=
  [⟨"c.jpg", some (2000, 1000)⟩, ⟨"b.jpg", some (800, 600)⟩, ⟨"a.jpg", none⟩]

/-- Fixture batch of five staged files, exactly one corrupt. -/
def exFiles5 : List SourceFile :=
  [⟨"e.jpg", some (500, 500)⟩, ⟨"d.jpg", some (1200, 900)⟩,
   ⟨"c.jpg", none⟩, ⟨"b.jpg", some (800, 600)⟩, ⟨"a.jpg", some (2000, 1000)⟩]

/-- A favorite album fixture. -/
def favAlbum : Album :=
  { id := "fav", title := "Fav", description := "", date := "2023-05-05",
    favorite := true, coverImage := some (exSizes "f").grid,
    images := [{ id := "f", sizes := exSizes "f" }] }

/-- The height rule exactly as the spec words it:
`newHeight = round(origHeight * w / origWidth)`, rounding half up. -/
def specRoundHeight (origH targetW origW : Nat) : Nat :=
  (2 * origH * targetW + origW) / (2 * origW)

/-- What the code emits for one configured size: the original dimensions
unscaled when the source is narrow enough, otherwise the target width with
the binary64-truncated height. -/
def variantDimsFp (origW origH targetW : Nat) (sv : SizeVariant) : Prop :=
  if origW ≤ targetW then sv.width = origW ∧ sv.height = origH
  else sv.width = targetW ∧ sv.height = fpScaledHeight origH targetW origW

/-- The pairwise order claim C7 asserts on the catalog: all favorites before
all non-favorites, and non-favorites mutually ordered by date descending. -/
def claimRelOk (a b : Album) : Bool :=
  if b.favorite then a.favorite else (a.favorite || !(strLt a.date b.date))

/-- Checker for the ordering claim C7 asserts, applied along the list. -/
def claimOrderOk : List Album → Bool
  | [] => true
  | a :: rest => rest.all (claimRelOk a) && claimOrderOk rest

/-- Checker: the list is ordered by date descending (ties in any order). -/
def dateDescOk : List Album → Bool
  | [] => true
  | a :: rest => rest.all (fun b => !(strLt a.date b.date)) && dateDescOk rest

/-- Checker: the files are in ascending lexicographic filename order. -/
def nameAscOk : List SourceFile → Bool
  | [] => true
  | a :: rest => rest.all (fun b => !(strLt b.name a.name)) && nameAscOk rest

/-- The successfully derived images in lexicographic source-filename order -
the canonical value process_directory is shown to compute. -/
def derivedSorted (files : List SourceFile) : List ImageMeta :=
  (sortByName files).filterMap process_single_image

/-- Safety invariant of the delete_images loop: the cover dict can be empty
only when no image remains (otherwise reading `coverImage['webp']` would
raise KeyError in the loop body). -/
def CoverSafe (ds : DelState) : Prop :=
  ds.cover ≠ none ∨ ds.images = []

/-- Tracking invariant of the delete_images loop: either the cover already
equals the grid variant of the first image in the list (or is empty along
with the list), or it is the grid path of some still-listed image whose id
is still pending removal. -/
def CoverTracks (ds : DelState) (pending : List String) : Prop :=
  ds.cover = headGrid ds.images ∨
  ∃ x ∈ ds.images, x.id ∈ pending ∧
    ∃ cv, ds.cover = some cv ∧ cv.webp = x.sizes.grid.webp

/-! Claim C8: catalog saving. -/

/-- Claim C8 as stated is false: `_save_albums_json` makes no backup copy of
the previous catalog file before overwriting it.  Concretely, saving over a
catalog holding `[exAlbum]` leaves the set of backup copies empty, so the
previous contents are not backed up anywhere. -/
theorem save_albums_json_no_backup_cex :
    ¬ ([exAlbum] ∈ (save_albums_json
        { albumsFile := some [exAlbum], backups := [] } []).backups) := by
  simp [save_albums_json]

/-- Claim C8 amended: saving the catalog rewrites albums.json in place with
the new data; no backup copy of the previous file is created (and there is
no write-to-temporary-then-rename step). -/
theorem save_albums_json_in_place :
    ∀ (fs : JsonFs) (data : List Album),
      (save_albums_json fs data).albumsFile = some data ∧
      (save_albums_json fs data).backups = fs.backups :=
  fun _ _ => ⟨rfl, rfl⟩

/-! Claim C3: deleting a nonexistent album. -/

/-- Claim C3 as stated is false: deleting an album id that is not in the
catalog does not return success.  On the empty store, `delete_album "ghost"`
returns False (AlbumManager.delete_album raises "Album not found" and its
handler returns False). -/
theorem delete_album_missing_returns_false_cex :
    ¬ ((delete_album emptyStore "ghost").1 = true) := by
  decide

/-- Claim C3 amended: deleting a nonexistent album id returns failure
(False), not success, in both implementations — AlbumManager.delete_album
raises "Album not found" and returns False leaving the store untouched, and
create_album.py's delete_album returns False when the id is found neither in
the catalog nor on disk — so the delete is a no-op but is reported as an
error, not as an idempotent success. -/
theorem delete_album_missing_is_failure (st : Store) (fs : ScriptFs)
    (albumId : String)
    (h1 : ∀ a ∈ st.albums, a.id ≠ albumId)
    (h2 : ∀ a ∈ fs.albums, a.id ≠ albumId)
    (h3 : albumId ∉ fs.dirs)
    (h4 : albumId ++ ".html" ∉ fs.htmls) :
    delete_album st albumId = (false, st) ∧
    delete_album_script fs albumId = (false, fs) := by
  constructor
  · unfold delete_album
    have hany : st.albums.any (fun a => a.id = albumId) = false := by
      simp only [List.any_eq_false, decide_eq_true_eq]
      exact h1
    simp [hany]
  · have hany : fs.albums.any (fun a => a.id = albumId) = false := by
      simp only [List.any_eq_false, decide_eq_true_eq]
      exact h2
    have hdirs : fs.dirs.filter (fun d => !decide (d = albumId)) = fs.dirs := by
      apply List.filter_eq_self.mpr
      intro d hd
      simp only [Bool.not_eq_true', decide_eq_false_iff_not]
      intro hEq
      exact h3 (hEq ▸ hd)
    have hhtml : fs.htmls.filter
        (fun x => !decide (x = albumId ++ ".html")) = fs.htmls := by
      apply List.filter_eq_self.mpr
      intro x hx
      simp only [Bool.not_eq_true', decide_eq_false_iff_not]
      intro hEq
      exact h4 (hEq ▸ hx)
    simp [delete_album_script, hany, h3, h4, hdirs, hhtml]

/-- Witness for the amended C3 theorem at a concrete input. -/
theorem delete_album_missing_is_failure_witness :
    delete_album emptyStore "ghost" = (false, emptyStore) ∧
    delete_album_script { albums := [], dirs := [], htmls := [] } "ghost" =
      (false, { albums := [], dirs := [], htmls := [] }) :=
  delete_album_missing_is_failure emptyStore
    { albums := [], dirs := [], htmls := [] } "ghost"
    (by intro a ha; cases ha) (by intro a ha; cases ha)
    (by simp) (by simp)

/-! Claim C9: responsive dimension arithmetic. -/

/-- The model's rounding primitive really rounds to the nearest integer:
the rounded value is within half a unit of n/d on either side. -/
theorem rne_nearest (n d : Nat) (hd : 0 < d) :
    d * (2 * rne n d) ≤ 2 * n + d ∧ 2 * n ≤ d * (2 * rne n d) + d := by
  have h1 := Nat.div_add_mod n d
  have h2 := Nat.mod_lt n hd
  have h3 : d * (2 * (n / d)) = 2 * (d * (n / d)) := by ring
  have h4 : d * (2 * (n / d + 1)) = 2 * (d * (n / d)) + 2 * d := by ring
  simp only [rne]
  split
  · omega
  · split
    · omega
    · split <;> omega

/-- Claim C9 as stated is false: the emitted height is the truncation of
the binary64 product, not round(H0 * w / W0).  For a 1000 x 999 source at
grid width 400 the code computes int(999 * 0.4); in binary64 the quotient
0.4 rounds up slightly and the product is 399.60000000000002, so int gives
399, while the claim's round(399.6) is 400. -/
theorem scale_height_not_round_cex :
    (createResponsiveVersions "img" 1000 999).grid.height = 399 ∧
    specRoundHeight 999 400 1000 = 400 ∧
    ¬ ((createResponsiveVersions "img" 1000 999).grid.height =
        specRoundHeight 999 400 1000) := by
  refine ⟨?_, ?_, ?_⟩ <;> decide

/-- The scaling branch of scaleDims. -/
theorem scaleDims_of_lt (origW origH targetW : Nat) (h : targetW < origW) :
    scaleDims origW origH targetW =
      (targetW, fpScaledHeight origH targetW origW) := by
  unfold scaleDims
  rw [if_pos h]

/-- The no-scaling branch of scaleDims. -/
theorem scaleDims_of_not_lt (origW origH targetW : Nat) (h : ¬ targetW < origW) :
    scaleDims origW origH targetW = (origW, origH) := by
  unfold scaleDims
  rw [if_neg h]

/-- Branch characterisation of a single emitted size variant. -/
theorem mkVariant_dims_fp (b s : String) (origW origH targetW : Nat) :
    variantDimsFp origW origH targetW (mkVariant b s origW origH targetW) := by
  unfold variantDimsFp
  by_cases hlt : targetW < origW
  · rw [if_neg (by omega : ¬ origW ≤ targetW)]
    unfold mkVariant
    rw [scaleDims_of_lt origW origH targetW hlt]
    exact ⟨rfl, rfl⟩
  · rw [if_pos (by omega : origW ≤ targetW)]
    unfold mkVariant
    rw [scaleDims_of_not_lt origW origH targetW hlt]
    exact ⟨rfl, rfl⟩

/-- Claim C9 amended: for each target width w in the fixed size list
(grid 400, small 800, medium 1200, large 1600), a source of width W0 > 0
and height H0 keeps its original dimensions unscaled when W0 ≤ w; otherwise
the variant declares width w and a height equal to int(H0 * (w / W0))
evaluated in binary64 double precision - the truncation of the
floating-point product.  That value is not round(H0*w/W0) (1000 x 999 at
w = 400 yields 399, not 400) and can even fall one below the exact
floor(H0*w/W0) (464 x 145 at w = 400 yields 124, though 145*400/464 = 125
exactly). -/
theorem responsive_dims_semantics :
    (∀ (b : String) (origW origH : Nat), 0 < origW →
      variantDimsFp origW origH 400
        (createResponsiveVersions b origW origH).grid ∧
      variantDimsFp origW origH 800
        (createResponsiveVersions b origW origH).small ∧
      variantDimsFp origW origH 1200
        (createResponsiveVersions b origW origH).medium ∧
      variantDimsFp origW origH 1600
        (createResponsiveVersions b origW origH).large) ∧
    ((createResponsiveVersions "img" 464 145).grid.height = 124 ∧
      145 * 400 / 464 = 125) ∧
    ((createResponsiveVersions "img" 1000 999).grid.height = 399 ∧
      specRoundHeight 999 400 1000 = 400) := by
  refine ⟨?_, by decide, by decide⟩
  intro b origW origH _
  exact ⟨mkVariant_dims_fp b "grid" origW origH 400,
    mkVariant_dims_fp b "small" origW origH 800,
    mkVariant_dims_fp b "medium" origW origH 1200,
    mkVariant_dims_fp b "large" origW origH 1600⟩

/-- Witness for the amended C9 theorem at the divergent concrete input. -/
theorem responsive_dims_semantics_witness :
    (0 < 464) ∧
    variantDimsFp 464 145 400 (createResponsiveVersions "img" 464 145).grid :=
  ⟨by decide, (responsive_dims_semantics.1 "img" 464 145 (by decide)).1⟩

/-! Claim C1: create_album is all-or-nothing. -/

/-- The album directory never survives its own rollback. -/
theorem not_mem_rmtree_dirs (st : Store) (n : String) :
    n ∉ (rmtreeAlbum st n).dirs := by
  simp [rmtreeAlbum]

/-- Claim C1: whenever create_album fails - at any step, including after the
album directory has been created (no image derived, cover hint unresolvable,
validation failure, duplicate id or failing catalog save) - the catalog is
left exactly as it was, the album directory is not present, and in
particular no catalog entry for the album exists. -/
theorem create_album_all_or_nothing
    (st : Store) (albumName title date descr : String)
    (imageDirOk templateOk : Bool) (processed : List ImageMeta)
    (coverHint : Option String) (validationOk saveOk : Bool)
    (hdir : albumName ∉ st.dirs)
    (hid : ∀ a ∈ st.albums, a.id ≠ albumName) :
    (create_album st albumName title date descr imageDirOk templateOk
        processed coverHint validationOk saveOk).1 = false →
    (create_album st albumName title date descr imageDirOk templateOk
        processed coverHint validationOk saveOk).2.albums = st.albums ∧
    albumName ∉ (create_album st albumName title date descr imageDirOk templateOk
        processed coverHint validationOk saveOk).2.dirs ∧
    ∀ a ∈ (create_album st albumName title date descr imageDirOk templateOk
        processed coverHint validationOk saveOk).2.albums, a.id ≠ albumName := by
  have key : ∀ st' : Store, st'.albums = st.albums → albumName ∉ st'.dirs →
      st'.albums = st.albums ∧ albumName ∉ st'.dirs ∧
        ∀ a ∈ st'.albums, a.id ≠ albumName :=
    fun st' h1 h2 => ⟨h1, h2, fun a ha => hid a (h1 ▸ ha)⟩
  unfold create_album
  split
  · intro _
    exact key _ rfl (not_mem_rmtree_dirs st albumName)
  · split
    · intro _
      exact key st rfl hdir
    · split
      · intro _
        exact key _ rfl (not_mem_rmtree_dirs _ albumName)
      · split
        · intro _
          exact key _ rfl (not_mem_rmtree_dirs _ albumName)
        · split
          · intro _
            exact key _ rfl (not_mem_rmtree_dirs _ albumName)
          · split
            · intro _
              exact key _ rfl (not_mem_rmtree_dirs _ albumName)
            · split
              · intro _
                exact key _ rfl (not_mem_rmtree_dirs _ albumName)
              · split
                · intro _
                  exact key _ rfl (not_mem_rmtree_dirs _ albumName)
                · intro hfalse
                  exact absurd hfalse (by simp)

/-- Witness for C1 at a concrete input: a failing catalog save after two
images were derived rolls everything back on the sample store. -/
theorem create_album_all_or_nothing_witness :
    ("alb2" ∉ exStore.dirs) ∧ (∀ a ∈ exStore.albums, a.id ≠ "alb2") ∧
    ((create_album exStore "alb2" "T" "2024-06-01" "" true true
        [exImgA, exImgB] none true false).1 = false) ∧
    ((create_album exStore "alb2" "T" "2024-06-01" "" true true
        [exImgA, exImgB] none true false).2.albums = exStore.albums ∧
      "alb2" ∉ (create_album exStore "alb2" "T" "2024-06-01" "" true true
        [exImgA, exImgB] none true false).2.dirs ∧
      ∀ a ∈ (create_album exStore "alb2" "T" "2024-06-01" "" true true
        [exImgA, exImgB] none true false).2.albums, a.id ≠ "alb2") :=
  ⟨by decide, by decide, by decide,
   create_album_all_or_nothing exStore "alb2" "T" "2024-06-01" "" true true
     [exImgA, exImgB] none true false (by decide) (by decide) (by decide)⟩

/-! Claim C7: catalog ordering. -/

/-- Membership in an ordered insert. -/
theorem mem_insertOrd (before : α → α → Bool) (x : α) (l : List α) (z : α) :
    z ∈ insertOrd before x l ↔ z = x ∨ z ∈ l := by
  induction l with
  | nil => simp [insertOrd]
  | cons y ys ih =>
    unfold insertOrd
    split
    · simp
    · simp only [List.mem_cons, ih]
      tauto

/-- Ordered insert is a permutation of cons. -/
theorem insertOrd_perm (before : α → α → Bool) (x : α) (l : List α) :
    (insertOrd before x l).Perm (x :: l) := by
  induction l with
  | nil => simp [insertOrd]
  | cons y ys ih =>
    unfold insertOrd
    split
    · exact List.Perm.refl _
    · exact (ih.cons y).trans (List.Perm.swap x y ys)

/-- Insertion sort starting from an accumulator permutes accumulator ++ input. -/
theorem foldl_insertOrd_perm (before : α → α → Bool) (l acc : List α) :
    (l.foldl (fun acc x => insertOrd before x acc) acc).Perm (acc ++ l) := by
  induction l generalizing acc with
  | nil => simp
  | cons x xs ih =>
    refine (ih (insertOrd before x acc)).trans ?_
    refine ((insertOrd_perm before x acc).append_right xs).trans ?_
    exact List.perm_middle.symm

/-- sortOrd permutes its input. -/
theorem sortOrd_perm (before : α → α → Bool) (l : List α) :
    (sortOrd before l).Perm l :=
  foldl_insertOrd_perm before l []

/-- strLtB is irreflexive. -/
theorem strLtB_irrefl : ∀ l : List Char, strLtB l l = false := by
  intro l
  induction l with
  | nil => rfl
  | cons a as ih =>
    unfold strLtB
    rw [if_neg (lt_irrefl a.toNat), if_neg (lt_irrefl a.toNat)]
    exact ih

/-- strLtB is transitive. -/
theorem strLtB_trans : ∀ l1 l2 l3 : List Char,
    strLtB l1 l2 = true → strLtB l2 l3 = true → strLtB l1 l3 = true := by
  intro l1
  induction l1 with
  | nil =>
    intro l2 l3 h12 h23
    cases l2 with
    | nil => exact absurd h12 (by simp [strLtB])
    | cons b bs =>
      cases l3 with
      | nil => exact absurd h23 (by simp [strLtB])
      | cons c cs => rfl
  | cons a as ih =>
    intro l2 l3 h12 h23
    cases l2 with
    | nil => exact absurd h12 (by simp [strLtB])
    | cons b bs =>
      cases l3 with
      | nil => exact absurd h23 (by simp [strLtB])
      | cons c cs =>
        unfold strLtB at h12 h23 ⊢
        by_cases hab : a.toNat < b.toNat
        · by_cases hbc : b.toNat < c.toNat
          · rw [if_pos (by omega)]
          · rw [if_neg hbc] at h23
            by_cases hcb : c.toNat < b.toNat
            · rw [if_pos hcb] at h23
              exact absurd h23 (by simp)
            · rw [if_pos (by omega)]
        · rw [if_neg hab] at h12
          by_cases hba : b.toNat < a.toNat
          · rw [if_pos hba] at h12
            exact absurd h12 (by simp)
          · rw [if_neg hba] at h12
            by_cases hbc : b.toNat < c.toNat
            · rw [if_pos (by omega)]
            · rw [if_neg hbc] at h23
              by_cases hcb : c.toNat < b.toNat
              · rw [if_pos hcb] at h23
                exact absurd h23 (by simp)
              · rw [if_neg hcb] at h23
                rw [if_neg (by omega), if_neg (by omega)]
                exact ih bs cs h12 h23

/-- strLtB is asymmetric. -/
theorem strLtB_asymm : ∀ l1 l2 : List Char,
    strLtB l1 l2 = true → strLtB l2 l1 = false := by
  intro l1
  induction l1 with
  | nil =>
    intro l2 h
    cases l2 with
    | nil => rfl
    | cons b bs => rfl
  | cons a as ih =>
    intro l2 h
    cases l2 with
    | nil => exact absurd h (by simp [strLtB])
    | cons b bs =>
      unfold strLtB at h ⊢
      by_cases hab : a.toNat < b.toNat
      · rw [if_neg (by omega), if_pos (by omega)]
      · rw [if_neg hab] at h
        by_cases hba : b.toNat < a.toNat
        · rw [if_pos hba] at h
          exact absurd h (by simp)
        · rw [if_neg hba] at h
          rw [if_neg (by omega), if_neg (by omega)]
          exact ih bs h

/-- String-level transitivity of strLt. -/
theorem strLt_trans (a b c : String) (h1 : strLt a b = true)
    (h2 : strLt b c = true) : strLt a c = true :=
  strLtB_trans a.data b.data c.data h1 h2

/-- String-level asymmetry of strLt. -/
theorem strLt_asymm (a b : String) (h : strLt a b = true) :
    strLt b a = false :=
  strLtB_asymm a.data b.data h

/-- Ordered insert by date-descending preserves the date-descending checker. -/
theorem dateDescOk_insertOrd (x : Album) (l : List Album)
    (hl : dateDescOk l = true) :
    dateDescOk (insertOrd (fun a b => strLt b.date a.date) x l) = true := by
  induction l with
  | nil => simp [insertOrd, dateDescOk]
  | cons y ys ih =>
    unfold dateDescOk at hl
    rw [Bool.and_eq_true, List.all_eq_true] at hl
    obtain ⟨hall, hys⟩ := hl
    simp only [insertOrd]
    by_cases h : strLt y.date x.date = true
    · rw [if_pos h]
      unfold dateDescOk
      rw [Bool.and_eq_true, List.all_eq_true]
      refine ⟨?_, ?_⟩
      · intro b hb
        rcases List.mem_cons.mp hb with hb | hb
        · subst hb
          simp only [Bool.not_eq_true']
          exact strLt_asymm _ _ h
        · have hyb : strLt y.date b.date = false := by
            have hb' := hall b hb
            simpa using hb'
          simp only [Bool.not_eq_true']
          cases hxb : strLt x.date b.date with
          | false => rfl
          | true =>
            have hc : strLt y.date b.date = true := strLt_trans _ _ _ h hxb
            rw [hc] at hyb
            exact absurd hyb (by simp)
      · unfold dateDescOk
        rw [Bool.and_eq_true, List.all_eq_true]
        exact ⟨hall, hys⟩
    · rw [if_neg h]
      unfold dateDescOk
      rw [Bool.and_eq_true, List.all_eq_true]
      refine ⟨?_, ih hys⟩
      intro b hb
      rcases (mem_insertOrd _ x ys b).mp hb with hb | hb
      · simp only [Bool.not_eq_true']
        rw [hb]
        cases hyx : strLt y.date x.date with
        | false => rfl
        | true => exact absurd hyx h
      · exact hall b hb

/-- Folding date-descending inserts over any list keeps the checker true. -/
theorem dateDescOk_foldl (l acc : List Album) (hacc : dateDescOk acc = true) :
    dateDescOk (l.foldl
      (fun acc x => insertOrd (fun a b => strLt b.date a.date) x acc)
      acc) = true := by
  induction l generalizing acc with
  | nil => exact hacc
  | cons x xs ih => exact ih _ (dateDescOk_insertOrd x acc hacc)

/-- list_albums output is ordered by date descending. -/
theorem list_albums_date_desc (l : List Album) :
    dateDescOk (list_albums l) = true :=
  dateDescOk_foldl l [] rfl

/-- Ordered insert by date ignores any field rewrite that keeps the date. -/
theorem insertOrd_map_date (g : Album → Album) (hg : ∀ a, (g a).date = a.date)
    (x : Album) (l : List Album) :
    insertOrd (fun a b => strLt b.date a.date) (g x) (l.map g) =
      (insertOrd (fun a b => strLt b.date a.date) x l).map g := by
  induction l with
  | nil => simp [insertOrd]
  | cons y ys ih =>
    simp only [List.map_cons, insertOrd, hg]
    split
    · simp only [List.map_cons]
    · simp only [List.map_cons]
      rw [ih]

/-- Sorting by date commutes with a date-preserving field rewrite. -/
theorem foldl_insert_map_date (g : Album → Album)
    (hg : ∀ a, (g a).date = a.date) (l acc : List Album) :
    (l.map g).foldl
        (fun acc x => insertOrd (fun a b => strLt b.date a.date) x acc)
        (acc.map g) =
      (l.foldl
        (fun acc x => insertOrd (fun a b => strLt b.date a.date) x acc)
        acc).map g := by
  induction l generalizing acc with
  | nil => rfl
  | cons x xs ih =>
    simp only [List.map_cons, List.foldl_cons]
    rw [insertOrd_map_date g hg x acc]
    exact ih (insertOrd (fun a b => strLt b.date a.date) x acc)

/-- list_albums is insensitive to the favorite flag. -/
theorem list_albums_map_fav (l : List Album) (b : Bool) :
    list_albums (l.map (fun a => { a with favorite := b })) =
      (list_albums l).map (fun a => { a with favorite := b }) :=
  foldl_insert_map_date (fun a => { a with favorite := b }) (fun _ => rfl) l []

/-- Claim C7 as stated is false: after a successful create_album mutation on
a catalog holding a non-favorite album followed by a favorite one, the saved
catalog is [non-favorite, favorite, new], which puts a favorite album after
a non-favorite one and is not sorted by date descending either. -/
theorem catalog_order_not_favorites_first_cex :
    (create_album { albums := [exAlbum, favAlbum], dirs := [], files := [] }
        "zzz" "T" "2024-06-01" "" true true [exImgA] none true true).1 = true ∧
    claimOrderOk (create_album
        { albums := [exAlbum, favAlbum], dirs := [], files := [] }
        "zzz" "T" "2024-06-01" "" true true [exImgA] none true true).2.albums
      = false := by
  constructor <;> decide

/-- Claim C7 amended: AlbumManager mutations never re-sort the stored
catalog (a created album is appended at the end regardless of favorite or
date); the only ordering in the repository is by date descending and is
applied when reading: list_albums returns a permutation of the catalog that
passes the date-descending checker, and the favorite flag has no influence
on that order. -/
theorem catalog_order_date_desc_only :
    (∀ l : List Album,
      dateDescOk (list_albums l) = true ∧ (list_albums l).Perm l) ∧
    (∀ (l : List Album) (b : Bool),
      list_albums (l.map (fun a => { a with favorite := b })) =
        (list_albums l).map (fun a => { a with favorite := b })) :=
  ⟨fun l => ⟨list_albums_date_desc l, sortOrd_perm _ l⟩,
   fun l b => list_albums_map_fav l b⟩

/-! Claim C6: cover-hint resolution. -/

/-- Claim C6 as stated is false on the id-hint side: a cover hint naming an
image id that is not among the derived images does not degrade to the
fallback - create_album raises "Cover image not found in processed images"
and the whole create fails.  Concretely, with the single derived image
`a.jpg` and the staged hint `zzz`, the hint resolves to `zzz` and the create
operation returns failure instead of an album with the fallback cover. -/
theorem cover_hint_id_not_found_fails_cex :
    resolve_cover_hint (some "zzz") none [⟨"a.jpg", some (1000, 800)⟩]
      = some "zzz" ∧
    (create_album emptyStore "alb" "T" "2024-01-01" "" true true
        (process_directory [⟨"a.jpg", some (1000, 800)⟩])
        (resolve_cover_hint (some "zzz") none [⟨"a.jpg", some (1000, 800)⟩])
        true true).1 = false := by
  constructor <;> decide

/-- Claim C6 amended: a truthy explicit image-id hint takes precedence over
an ordinal hint; an ordinal hint k in [1, N] selects the stem of the k-th
candidate filename in lexicographic order (over all staged candidate files,
not only the accepted ones); an ordinal outside [1, N] resolves to no hint,
after which create_album falls back to the first derived image and
succeeds; but an id hint that matches no derived image does not fall back -
it makes create_album fail, leaving the catalog unchanged. -/
theorem cover_resolution_semantics :
    (∀ (c : String) (k : Option Int) (files : List SourceFile),
      c ≠ "" → resolve_cover_hint (some c) k files = some c) ∧
    (∀ (files : List SourceFile) (k : Int),
      1 ≤ k → k ≤ ((sortByName files).length : Int) →
      resolve_cover_hint none (some k) files =
        ((sortByName files)[(k - 1).toNat]?).map (fun f => stemOf f.name)) ∧
    (∀ (files : List SourceFile) (k : Int),
      (k < 1 ∨ ((sortByName files).length : Int) < k) →
      resolve_cover_hint none (some k) files = none) ∧
    (∀ (st : Store) (n t d ds : String) (m : ImageMeta) (tl : List ImageMeta),
      n ∉ st.dirs → st.albums.any (fun a => a.id = n) = false →
      (create_album st n t d ds true true (m :: tl) none true true).1 = true ∧
      (create_album st n t d ds true true (m :: tl) none true true).2.albums =
        st.albums ++ [{ id := n, title := t, description := ds, date := d,
                        favorite := false, coverImage := some m.sizes.grid,
                        images := m :: tl }]) ∧
    (∀ (st : Store) (n t d ds c : String) (processed : List ImageMeta),
      n ∉ st.dirs → c ≠ "" →
      (∀ im ∈ processed, im.id ≠ stemOf c) →
      (create_album st n t d ds true true processed (some c) true true).1 =
        false ∧
      (create_album st n t d ds true true processed (some c) true true).2.albums
        = st.albums) := by
  refine ⟨?_, ?_, ?_, ?_, ?_⟩
  · intro c k files hc
    have he : c.isEmpty = false := by
      cases hh : c.isEmpty
      · rfl
      · exact absurd ((String.isEmpty_iff c).mp hh) hc
    simp [resolve_cover_hint, strOptTruthy, he]
  · intro files k h1 h2
    have hcond : 0 ≤ k - 1 ∧ k - 1 < ((sortByName files).length : Int) :=
      ⟨by omega, by omega⟩
    simp only [resolve_cover_hint, strOptTruthy, Bool.false_eq_true, if_false]
    rw [if_pos hcond]
    cases hg : (sortByName files)[(k - 1).toNat]? with
    | none => simp
    | some f => simp
  · intro files k hout
    have hcond : ¬ (0 ≤ k - 1 ∧ k - 1 < ((sortByName files).length : Int)) := by
      omega
    simp only [resolve_cover_hint, strOptTruthy, Bool.false_eq_true, if_false]
    rw [if_neg hcond]
  · intro st n t d ds m tl hdir hany
    unfold create_album
    rw [if_neg hdir]
    simp [resolveCover, hany]
  · intro st n t d ds c processed hdir hc hnone
    have he : c.isEmpty = false := by
      cases hh : c.isEmpty
      · rfl
      · exact absurd ((String.isEmpty_iff c).mp hh) hc
    have hfind : processed.find? (fun im => im.id = stemOf c) = none := by
      rw [List.find?_eq_none]
      intro im him
      simpa using hnone im him
    unfold create_album
    rw [if_neg hdir]
    simp [resolveCover, he, hfind, rmtreeAlbum]

/-- Witness for the amended C6 theorem at concrete inputs: precedence of the
id hint, ordinal 2 selecting the 2nd sorted filename, ordinal 99 falling
back, and an unmatched id hint failing the create. -/
theorem cover_resolution_semantics_witness :
    resolve_cover_hint (some "ccc") (some 1)
      [⟨"aaa.jpg", some (1, 1)⟩] = some "ccc" ∧
    resolve_cover_hint none (some 2)
      [⟨"bbb.jpg", some (1, 1)⟩, ⟨"aaa.jpg", some (1, 1)⟩,
       ⟨"ccc.jpg", some (1, 1)⟩] = some "bbb" ∧
    resolve_cover_hint none (some 99) [⟨"aaa.jpg", some (1, 1)⟩] = none ∧
    (create_album exStore "alb9" "T" "2024-01-01" "" true true
        [exImgA, exImgB] (some "zzz.jpg") true true).1 = false :=
  ⟨cover_resolution_semantics.1 "ccc" (some 1) [⟨"aaa.jpg", some (1, 1)⟩]
      (by decide),
   (cover_resolution_semantics.2.1
      [⟨"bbb.jpg", some (1, 1)⟩, ⟨"aaa.jpg", some (1, 1)⟩,
       ⟨"ccc.jpg", some (1, 1)⟩] 2 (by decide) (by decide)).trans (by decide),
   cover_resolution_semantics.2.2.1 [⟨"aaa.jpg", some (1, 1)⟩] 99
      (by decide),
   (cover_resolution_semantics.2.2.2.2 exStore "alb9" "T" "2024-01-01" ""
      "zzz.jpg" [exImgA, exImgB] (by decide) (by decide) (by decide)).1⟩

/-! Claims C5 and C10: the derivation pipeline. -/

/-- process_album is the filterMap of per-image processing keyed by name. -/
theorem process_album_eq_filterMap (fs : List SourceFile) :
    process_album fs = fs.filterMap
      (fun f => (process_single_image f).map (fun m => (f.name, m))) := by
  induction fs with
  | nil => rfl
  | cons f rest ih =>
    unfold process_album
    cases hp : process_single_image f <;>
      simp [List.filterMap_cons, hp, ih]

/-- A name absent from the batch is absent from the metadata dict. -/
theorem mdLookup_eq_none (fs : List SourceFile) (k : String)
    (hk : k ∉ fs.map (fun f => f.name)) :
    mdLookup (process_album fs) k = none := by
  induction fs with
  | nil => rfl
  | cons f rest ih =>
    simp only [List.map_cons, List.mem_cons, not_or] at hk
    obtain ⟨h1, h2⟩ := hk
    unfold process_album
    cases hp : process_single_image f
    · exact ih h2
    · unfold mdLookup
      rw [if_neg (fun hEq => h1 hEq.symm)]
      exact ih h2

/-- With pairwise-distinct file names, looking a file's name up in the
metadata dict returns exactly that file's processing result. -/
theorem mdLookup_process_album (fs : List SourceFile) (f : SourceFile)
    (hnd : (fs.map (fun f => f.name)).Nodup) (hf : f ∈ fs) :
    mdLookup (process_album fs) f.name = process_single_image f := by
  induction fs with
  | nil => cases hf
  | cons g rest ih =>
    rw [List.map_cons, List.nodup_cons] at hnd
    obtain ⟨hg, hrest⟩ := hnd
    rcases List.mem_cons.mp hf with hf | hf
    · subst hf
      unfold process_album
      cases hp : process_single_image f with
      | some m =>
        unfold mdLookup
        rw [if_pos rfl]
      | none =>
        exact mdLookup_eq_none rest f.name hg
    · have hne : g.name ≠ f.name :=
        fun hEq => hg (hEq ▸ List.mem_map_of_mem (fun x => x.name) hf)
      unfold process_album
      cases hp : process_single_image g with
      | some m =>
        unfold mdLookup
        rw [if_neg hne]
        exact ih hrest hf
      | none => exact ih hrest hf

/-- Dict lookup is invariant under permutation of the insertion order when
the keys are pairwise distinct. -/
theorem mdLookup_perm (l1 l2 : List (String × ImageMeta)) (k : String)
    (hp : l1.Perm l2) (hnd : (l1.map Prod.fst).Nodup) :
    mdLookup l1 k = mdLookup l2 k := by
  induction hp with
  | nil => rfl
  | cons x h ih =>
    rw [List.map_cons, List.nodup_cons] at hnd
    obtain ⟨n, m⟩ := x
    by_cases hk : n = k <;> simp [mdLookup, hk, ih hnd.2]
  | swap x y l =>
    obtain ⟨n1, m1⟩ := x
    obtain ⟨n2, m2⟩ := y
    have hne : n2 ≠ n1 := by
      intro hEq
      simp [hEq] at hnd
    by_cases h1 : n1 = k
    · by_cases h2 : n2 = k
      · exact absurd (h2.trans h1.symm) hne
      · simp [mdLookup, h1, h2]
    · by_cases h2 : n2 = k <;> simp [mdLookup, h1, h2]
  | trans h12 h23 ih1 ih2 =>
    rw [ih1 hnd]
    exact ih2 ((h12.map Prod.fst).nodup hnd)

/-- A permutation of the batch yields a permutation of the metadata dict. -/
theorem process_album_perm (fs1 fs2 : List SourceFile) (h : fs1.Perm fs2) :
    (process_album fs1).Perm (process_album fs2) := by
  rw [process_album_eq_filterMap, process_album_eq_filterMap]
  exact h.filterMap _

/-- The metadata keys are drawn from the batch's file names, in order. -/
theorem process_album_keys_sublist (fs : List SourceFile) :
    ((process_album fs).map Prod.fst).Sublist (fs.map (fun f => f.name)) := by
  induction fs with
  | nil => exact List.nil_sublist []
  | cons f rest ih =>
    unfold process_album
    cases hp : process_single_image f
    · exact ih.cons _
    · simp only [List.map_cons]
      exact ih.cons₂ f.name

/-- Ascending ordered insert by name preserves the name-ascending checker. -/
theorem nameAscOk_insertOrd (x : SourceFile) (l : List SourceFile)
    (hl : nameAscOk l = true) :
    nameAscOk (insertOrd (fun a b => strLt a.name b.name) x l) = true := by
  induction l with
  | nil => simp [insertOrd, nameAscOk]
  | cons y ys ih =>
    unfold nameAscOk at hl
    rw [Bool.and_eq_true, List.all_eq_true] at hl
    obtain ⟨hall, hys⟩ := hl
    simp only [insertOrd]
    by_cases h : strLt x.name y.name = true
    · rw [if_pos h]
      unfold nameAscOk
      rw [Bool.and_eq_true, List.all_eq_true]
      refine ⟨?_, ?_⟩
      · intro b hb
        rcases List.mem_cons.mp hb with hb | hb
        · rw [hb]
          simp only [Bool.not_eq_true']
          exact strLt_asymm _ _ h
        · have hby : strLt b.name y.name = false := by
            have hb' := hall b hb
            simpa using hb'
          simp only [Bool.not_eq_true']
          cases hbx : strLt b.name x.name with
          | false => rfl
          | true =>
            have hc : strLt b.name y.name = true := strLt_trans _ _ _ hbx h
            rw [hc] at hby
            exact absurd hby (by simp)
      · unfold nameAscOk
        rw [Bool.and_eq_true, List.all_eq_true]
        exact ⟨hall, hys⟩
    · rw [if_neg h]
      unfold nameAscOk
      rw [Bool.and_eq_true, List.all_eq_true]
      refine ⟨?_, ih hys⟩
      intro b hb
      rcases (mem_insertOrd _ x ys b).mp hb with hb | hb
      · rw [hb]
        simp only [Bool.not_eq_true']
        cases hxy : strLt x.name y.name with
        | false => rfl
        | true => exact absurd hxy h
      · exact hall b hb

/-- Folding name-ascending inserts keeps the checker true. -/
theorem nameAscOk_foldl (l acc : List SourceFile)
    (hacc : nameAscOk acc = true) :
    nameAscOk (l.foldl
      (fun acc x => insertOrd (fun a b => strLt a.name b.name) x acc)
      acc) = true := by
  induction l generalizing acc with
  | nil => exact hacc
  | cons x xs ih => exact ih _ (nameAscOk_insertOrd x acc hacc)

/-- sortByName output is in ascending lexicographic filename order. -/
theorem sortByName_sorted (files : List SourceFile) :
    nameAscOk (sortByName files) = true :=
  nameAscOk_foldl files [] rfl

/-- Independent of the order worker results arrive, process_directory
returns exactly the successfully derived images in lexicographic source
filename order. -/
theorem process_directory_arr_eq (files arrival : List SourceFile)
    (hnd : (files.map (fun f => f.name)).Nodup)
    (harr : arrival.Perm (sortByName files)) :
    process_directory_arr files arrival = derivedSorted files := by
  unfold process_directory_arr derivedSorted
  have hperm : (sortByName files).Perm files := sortOrd_perm _ files
  have hndS : ((sortByName files).map (fun f => f.name)).Nodup :=
    (hperm.map (fun f => f.name)).symm.nodup hnd
  have hndA : (arrival.map (fun f => f.name)).Nodup :=
    ((harr.map (fun f => f.name)).symm).nodup hndS
  apply List.filterMap_congr
  intro f hf
  have h1 : mdLookup (process_album arrival) f.name =
      mdLookup (process_album (sortByName files)) f.name :=
    mdLookup_perm _ _ f.name (process_album_perm _ _ harr)
      ((process_album_keys_sublist arrival).nodup hndA)
  rw [h1]
  exact mdLookup_process_album (sortByName files) f hndS hf

/-- The successful create_album path: with the usual checks passing, a
nonempty processed list and no cover hint, the new album is appended with
the first processed image's grid variant as cover. -/
theorem create_album_success_shape (st : Store) (n t d ds : String)
    (m : ImageMeta) (tl : List ImageMeta)
    (hdir : n ∉ st.dirs) (hany : st.albums.any (fun a => a.id = n) = false) :
    create_album st n t d ds true true (m :: tl) none true true =
      (true,
       { albums := st.albums ++
           [{ id := n, title := t, description := ds, date := d,
              favorite := false, coverImage := some m.sizes.grid,
              images := m :: tl }]
         dirs := st.dirs ++ [n]
         files := st.files }) := by
  unfold create_album
  rw [if_neg hdir]
  simp [resolveCover, hany]

/-- filterMap over per-image processing counts exactly the decodable files. -/
theorem length_filterMap_psi (l : List SourceFile) :
    (l.filterMap process_single_image).length =
      (l.filter (fun f => f.dims.isSome)).length := by
  induction l with
  | nil => rfl
  | cons f rest ih =>
    cases hd : f.dims <;>
      simp [List.filterMap_cons, process_single_image, hd, ih]

/-- create_album fails when the pipeline derived no image at all. -/
theorem create_album_empty_processed (st : Store) (n t d ds : String)
    (hint : Option String) (hdir : n ∉ st.dirs) :
    (create_album st n t d ds true true [] hint true true).1 = false := by
  unfold create_album
  rw [if_neg hdir]
  simp

/-- Claim C10: the catalog entry built from a source directory lists exactly
the successfully processed images ordered by lexicographic source filename,
for every order in which the parallel workers' results arrive, and the
default cover (no hint) is the grid variant of the first such image. -/
theorem create_album_images_sorted_deterministic
    (st : Store) (n t d ds : String) (files arrival : List SourceFile)
    (m : ImageMeta) (tl : List ImageMeta)
    (hnd : (files.map (fun f => f.name)).Nodup)
    (harr : arrival.Perm (sortByName files))
    (hdir : n ∉ st.dirs)
    (hany : st.albums.any (fun a => a.id = n) = false)
    (hder : derivedSorted files = m :: tl) :
    process_directory_arr files arrival = derivedSorted files ∧
    nameAscOk (sortByName files) = true ∧
    (create_album st n t d ds true true (process_directory_arr files arrival)
        none true true).1 = true ∧
    (create_album st n t d ds true true (process_directory_arr files arrival)
        none true true).2.albums =
      st.albums ++
        [{ id := n, title := t, description := ds, date := d,
           favorite := false, coverImage := some m.sizes.grid,
           images := m :: tl }] := by
  have h1 := process_directory_arr_eq files arrival hnd harr
  refine ⟨h1, sortByName_sorted files, ?_, ?_⟩
  · rw [h1, hder, create_album_success_shape st n t d ds m tl hdir hany]
  · rw [h1, hder, create_album_success_shape st n t d ds m tl hdir hany]

/-- Witness for C10 at a concrete input: three staged files (one corrupt)
arriving in a different order than submitted still produce the sorted
derived list, and the create succeeds. -/
theorem create_album_images_sorted_deterministic_witness :
    process_directory_arr exFiles3 exArr3 = derivedSorted exFiles3 ∧
    (create_album emptyStore "alb10" "T" "2024-01-01" "" true true
        (process_directory_arr exFiles3 exArr3) none true true).1 = true :=
  ⟨(create_album_images_sorted_deterministic emptyStore "alb10" "T"
      "2024-01-01" "" exFiles3 exArr3
      { id := "b", sizes := createResponsiveVersions "b" 800 600 }
      [{ id := "c", sizes := createResponsiveVersions "c" 2000 1000 }]
      (by decide) (by decide) (by decide) (by decide) (by decide)).1,
   (create_album_images_sorted_deterministic emptyStore "alb10" "T"
      "2024-01-01" "" exFiles3 exArr3
      { id := "b", sizes := createResponsiveVersions "b" 800 600 }
      [{ id := "c", sizes := createResponsiveVersions "c" 2000 1000 }]
      (by decide) (by decide) (by decide) (by decide) (by decide)).2.2.1⟩

/-- Claim C5: a per-image failure is excluded from the results but does not
abort sibling images - every decodable file still yields its entry; the
number of entries equals the number of decodable files; the batch is empty
only when zero images succeed; and create_album (with the usual checks
passing) succeeds exactly when the derived batch is nonempty. -/
theorem process_album_isolates_failures
    (files : List SourceFile)
    (hnd : (files.map (fun f => f.name)).Nodup) :
    (∀ f ∈ files, ∀ m, process_single_image f = some m →
        m ∈ process_directory files) ∧
    (process_directory files).length =
        (files.filter (fun f => f.dims.isSome)).length ∧
    (process_directory files = [] ↔ ∀ f ∈ files, f.dims = none) ∧
    (∀ (st : Store) (n t d ds : String),
        n ∉ st.dirs → st.albums.any (fun a => a.id = n) = false →
        ((create_album st n t d ds true true (process_directory files) none
            true true).1 = true ↔ process_directory files ≠ [])) := by
  have hcanon : process_directory files = derivedSorted files :=
    process_directory_arr_eq files (sortByName files) hnd (List.Perm.refl _)
  have hperm : (sortByName files).Perm files := sortOrd_perm _ files
  have hiff : ∀ f : SourceFile,
      process_single_image f = none ↔ f.dims = none := by
    intro f
    unfold process_single_image
    exact Option.map_eq_none'
  refine ⟨?_, ?_, ?_, ?_⟩
  · intro f hf m hm
    rw [hcanon]
    unfold derivedSorted
    exact List.mem_filterMap.mpr ⟨f, hperm.mem_iff.mpr hf, hm⟩
  · rw [hcanon]
    unfold derivedSorted
    rw [length_filterMap_psi]
    exact (hperm.filter _).length_eq
  · rw [hcanon]
    unfold derivedSorted
    rw [List.filterMap_eq_nil_iff]
    constructor
    · intro h f hf
      exact (hiff f).mp (h f (hperm.mem_iff.mpr hf))
    · intro h f hf
      exact (hiff f).mpr (h f (hperm.mem_iff.mp hf))
  · intro st n t d ds hdir hany
    rw [hcanon]
    cases hds : derivedSorted files with
    | nil =>
      constructor
      · intro htrue
        rw [create_album_empty_processed st n t d ds none hdir] at htrue
        exact absurd htrue (by simp)
      · intro hne
        exact absurd rfl hne
    | cons m tl =>
      constructor
      · intro _
        exact List.cons_ne_nil m tl
      · intro _
        rw [create_album_success_shape st n t d ds m tl hdir hany]

/-- Witness for C5 at the spec's concrete scenario: a batch of five images
with exactly one corrupt yields four successful entries and the create
operation still succeeds. -/
theorem process_album_isolates_failures_witness :
    (process_directory exFiles5).length = 4 ∧
    (create_album emptyStore "batch" "T" "2024-01-01" "" true true
        (process_directory exFiles5) none true true).1 = true :=
  ⟨((process_album_isolates_failures exFiles5 (by decide)).2.1).trans
      (by decide),
   ((process_album_isolates_failures exFiles5 (by decide)).2.2.2 emptyStore
      "batch" "T" "2024-01-01" "" (by decide) (by decide)).mpr (by decide)⟩

/-! Claims C2 and C4: the delete_images loop. -/

/-- Equation: a missing id only clears the success flag. -/
theorem delete_one_missing (aid i : String) (ds : DelState)
    (hfind : ds.images.find? (fun im => im.id = i) = none) :
    delete_one aid ds i = { ds with success := false } := by
  unfold delete_one
  rw [hfind]

/-- Equation: a found image with an empty cover dict raises KeyError after
the files were unlinked; the handler clears the success flag and the image
stays listed. -/
theorem delete_one_keyerror (aid i : String) (ds : DelState)
    (target : ImageMeta)
    (hfind : ds.images.find? (fun im => im.id = i) = some target)
    (hcov : ds.cover = none) :
    delete_one aid ds i =
      { ds with files := removeSizeFiles ds.files aid target.sizes,
                success := false } := by
  unfold delete_one
  rw [hfind, hcov]

/-- Equation: the normal removal of a found image. -/
theorem delete_one_found (aid i : String) (ds : DelState)
    (target : ImageMeta) (cv : SizeVariant)
    (hfind : ds.images.find? (fun im => im.id = i) = some target)
    (hcov : ds.cover = some cv) :
    delete_one aid ds i =
      { images := ds.images.filter (fun im => im.id ≠ i)
        cover := if cv.webp = target.sizes.grid.webp then
            headGrid (ds.images.filter (fun im => im.id ≠ i))
          else some cv
        files := removeSizeFiles ds.files aid target.sizes
        success := ds.success } := by
  unfold delete_one
  rw [hfind, hcov]

/-- One step of the delete_images loop under the safety invariant: the
listed images lose exactly the processed id, the invariant persists, and a
missing id forces the success flag to False. -/
theorem delete_one_spec (aid i : String) (ds : DelState)
    (hsafe : CoverSafe ds) :
    (delete_one aid ds i).images =
      ds.images.filter (fun im => im.id ≠ i) ∧
    CoverSafe (delete_one aid ds i) ∧
    (ds.images.find? (fun im => im.id = i) = none →
      (delete_one aid ds i).success = false) := by
  cases hfind : ds.images.find? (fun im => im.id = i) with
  | none =>
    rw [delete_one_missing aid i ds hfind]
    have hall : ∀ im ∈ ds.images, ¬ (im.id = i) := by
      intro im him
      have h := List.find?_eq_none.mp hfind im him
      simpa using h
    refine ⟨?_, hsafe, fun _ => rfl⟩
    rw [List.filter_eq_self.mpr]
    intro im him
    simpa using hall im him
  | some target =>
    have htmem : target ∈ ds.images := List.mem_of_find?_eq_some hfind
    have hne : ds.images ≠ [] := by
      intro h
      rw [h] at htmem
      cases htmem
    cases hcov : ds.cover with
    | none =>
      rcases hsafe with h | h
      · exact absurd hcov h
      · exact absurd h hne
    | some cv =>
      rw [delete_one_found aid i ds target cv hfind hcov]
      refine ⟨rfl, ?_, ?_⟩
      · unfold CoverSafe
        by_cases hw : cv.webp = target.sizes.grid.webp
        · rw [if_pos hw]
          cases hrem : ds.images.filter (fun im => im.id ≠ i) with
          | nil =>
            right
            rfl
          | cons r t =>
            left
            simp [headGrid]
        · rw [if_neg hw]
          left
          simp
      · intro h
        exact Option.noConfusion h

/-- A cleared success flag never comes back within the loop body. -/
theorem delete_one_success_false (aid i : String) (ds : DelState)
    (h : ds.success = false) : (delete_one aid ds i).success = false := by
  cases hfind : ds.images.find? (fun im => im.id = i) with
  | none =>
    rw [delete_one_missing aid i ds hfind]
  | some target =>
    cases hcov : ds.cover with
    | none =>
      rw [delete_one_keyerror aid i ds target hfind hcov]
    | some cv =>
      rw [delete_one_found aid i ds target cv hfind hcov]
      exact h

/-- A cleared success flag never comes back across the loop. -/
theorem delete_loop_success_false (aid : String) (ids : List String)
    (ds : DelState) (h : ds.success = false) :
    (ids.foldl (delete_one aid) ds).success = false := by
  induction ids generalizing ds with
  | nil => exact h
  | cons i rest ih =>
    simp only [List.foldl_cons]
    exact ih _ (delete_one_success_false aid i ds h)

/-- The loop under the safety invariant: the image list ends up filtered by
the whole batch, and the invariant is preserved. -/
theorem delete_loop_spec (aid : String) (ids : List String) (ds : DelState)
    (hsafe : CoverSafe ds) :
    (ids.foldl (delete_one aid) ds).images =
      ds.images.filter (fun im => decide (im.id ∉ ids)) ∧
    CoverSafe (ids.foldl (delete_one aid) ds) := by
  induction ids generalizing ds with
  | nil =>
    refine ⟨?_, hsafe⟩
    show ds.images = ds.images.filter (fun im => decide (im.id ∉ ([] : List String)))
    rw [List.filter_eq_self.mpr (fun im _ => by simp)]
  | cons i rest ih =>
    obtain ⟨h1, h2, _⟩ := delete_one_spec aid i ds hsafe
    obtain ⟨ih1, ih2⟩ := ih (delete_one aid ds i) h2
    simp only [List.foldl_cons]
    refine ⟨?_, ih2⟩
    rw [ih1, h1, List.filter_filter]
    apply List.filter_congr
    intro a ha
    by_cases hai : a.id = i <;> by_cases har : a.id ∈ rest <;>
      simp [hai, har]

/-- An id missing from the album fails the whole call's success flag, but
only the flag: processing continues. -/
theorem delete_loop_miss (aid : String) (ids : List String) (ds : DelState)
    (hsafe : CoverSafe ds) (x : String) (hx : x ∈ ids)
    (hmiss : ∀ im ∈ ds.images, im.id ≠ x) :
    (ids.foldl (delete_one aid) ds).success = false := by
  induction ids generalizing ds with
  | nil => cases hx
  | cons i rest ih =>
    obtain ⟨h1, h2, h3⟩ := delete_one_spec aid i ds hsafe
    simp only [List.foldl_cons]
    rcases List.mem_cons.mp hx with hxi | hxr
    · have hnone : ds.images.find? (fun im => im.id = i) = none := by
        rw [List.find?_eq_none]
        intro im him
        rw [← hxi]
        simpa using hmiss im him
      exact delete_loop_success_false aid rest _ (h3 hnone)
    · apply ih (delete_one aid ds i) h2 hxr
      intro im him
      rw [h1] at him
      exact hmiss im (List.mem_of_mem_filter him)

/-- The tracking invariant implies the safety invariant. -/
theorem coverSafe_of_tracks (ds : DelState) (pending : List String)
    (ht : CoverTracks ds pending) : CoverSafe ds := by
  rcases ht with h | ⟨x, hx, _, cv, hcv, _⟩
  · cases hi : ds.images with
    | nil => right; exact hi
    | cons m t =>
      left
      rw [h, hi]
      simp [headGrid]
  · left
    rw [hcv]
    simp

/-- One loop step preserves the cover-tracking invariant and the
distinctness of the listed image ids. -/
theorem delete_one_tracks (aid i : String) (rest : List String)
    (ds : DelState)
    (hnd : (ds.images.map (fun im => im.id)).Nodup)
    (ht : CoverTracks ds (i :: rest)) :
    CoverTracks (delete_one aid ds i) rest ∧
    ((delete_one aid ds i).images.map (fun im => im.id)).Nodup := by
  cases hfind : ds.images.find? (fun im => im.id = i) with
  | none =>
    rw [delete_one_missing aid i ds hfind]
    refine ⟨?_, hnd⟩
    rcases ht with h | ⟨x, hx, hxp, cv, hcv, hxw⟩
    · exact Or.inl h
    · have hxi : x.id ≠ i := by
        intro hEq
        have h := List.find?_eq_none.mp hfind x hx
        simp [hEq] at h
      rcases List.mem_cons.mp hxp with hxp | hxp
      · exact absurd hxp hxi
      · exact Or.inr ⟨x, hx, hxp, cv, hcv, hxw⟩
  | some target =>
    have htmem : target ∈ ds.images := List.mem_of_find?_eq_some hfind
    have htid : target.id = i := by
      have h := List.find?_some hfind
      simpa using h
    have hne : ds.images ≠ [] := by
      intro h
      rw [h] at htmem
      cases htmem
    cases hcov : ds.cover with
    | none =>
      rcases coverSafe_of_tracks ds (i :: rest) ht with h | h
      · exact absurd hcov h
      · exact absurd h hne
    | some cv =>
      rw [delete_one_found aid i ds target cv hfind hcov]
      have hndsub : ((ds.images.filter (fun im => im.id ≠ i)).map
          (fun im => im.id)).Nodup :=
        hnd.sublist ((List.filter_sublist ds.images).map (fun im => im.id))
      refine ⟨?_, hndsub⟩
      by_cases hw : cv.webp = target.sizes.grid.webp
      · rw [if_pos hw]
        exact Or.inl rfl
      · rw [if_neg hw]
        rcases ht with h | ⟨x, hxmem, hxp, cv0, hcv0, hxw⟩
        · -- the cover was the head image's grid; the head survives
          cases hi : ds.images with
          | nil => exact absurd hi hne
          | cons m t =>
            have hcvm : cv = m.sizes.grid := by
              rw [hi] at h
              rw [hcov] at h
              simpa [headGrid] using h
            have hmi : m.id ≠ i := by
              intro hEq
              have hfm : ds.images.find? (fun im => im.id = i) = some m := by
                rw [hi]
                exact List.find?_cons_of_pos _ (by simpa using hEq)
              rw [hfind] at hfm
              have hteq : target = m := Option.some.inj hfm
              apply hw
              rw [hcvm, hteq]
            refine Or.inl ?_
            show some cv = headGrid ((m :: t).filter (fun im => im.id ≠ i))
            rw [List.filter_cons_of_pos (by simpa using hmi)]
            simp [headGrid, hcvm]
        · -- the cover tracks a still-pending image, which survives
          have hcveq : cv0 = cv := by
            rw [hcov] at hcv0
            exact (Option.some.inj hcv0).symm
          subst hcveq
          have hxii : x.id ≠ i := by
            intro hEq
            have : x = target :=
              List.inj_on_of_nodup_map hnd hxmem htmem (by rw [hEq, htid])
            apply hw
            rw [hxw, this]
          rcases List.mem_cons.mp hxp with hxp | hxp
          · exact absurd hxp hxii
          · refine Or.inr ⟨x, ?_, hxp, cv0, rfl, hxw⟩
            exact List.mem_filter.mpr ⟨hxmem, by simpa using hxii⟩

/-- After the whole batch is processed, the cover equals the grid variant
of the first remaining image, or none when no image remains. -/
theorem delete_loop_tracks (aid : String) (ids : List String) (ds : DelState)
    (hnd : (ds.images.map (fun im => im.id)).Nodup)
    (ht : CoverTracks ds ids) :
    (ids.foldl (delete_one aid) ds).cover =
      headGrid (ids.foldl (delete_one aid) ds).images := by
  induction ids generalizing ds with
  | nil =>
    rcases ht with h | ⟨x, _, hx, _⟩
    · exact h
    · cases hx
  | cons i rest ih =>
    obtain ⟨ht', hnd'⟩ := delete_one_tracks aid i rest ds hnd ht
    simp only [List.foldl_cons]
    exact ih _ hnd' ht'

/-- find? after updating the first album with a matching id, when the
update preserves the id. -/
theorem find?_updateFirst (f : Album → Album) (albumId : String)
    (l : List Album) (album : Album)
    (hf : ∀ a, (f a).id = a.id)
    (h : l.find? (fun a => a.id = albumId) = some album) :
    (updateFirst f albumId l).find? (fun a => a.id = albumId) =
      some (f album) := by
  induction l with
  | nil => cases h
  | cons a rest ih =>
    unfold updateFirst
    by_cases ha : a.id = albumId
    · rw [if_pos ha]
      rw [List.find?_cons_of_pos _ (by simpa using ha)] at h
      have haa : a = album := by
        injection h
      rw [List.find?_cons_of_pos _ (by simp [hf, ha])]
      rw [haa]
    · rw [if_neg ha]
      rw [List.find?_cons_of_neg _ (by simpa using ha)] at h
      rw [List.find?_cons_of_neg _ (by simpa using ha)]
      exact ih h

/-- Claim C4: a delete_images call that removes the image whose grid
variant the cover currently equals leaves the cover equal to the grid
variant of the first remaining image, or empty when no image remains -
so the cover always references a listed image's grid variant afterwards
unless the album is empty. -/
theorem delete_images_cover_reassignment
    (st : Store) (albumId : String) (imageIds : List String)
    (album : Album) (x : ImageMeta) (cv : SizeVariant)
    (hfind : st.albums.find? (fun a => a.id = albumId) = some album)
    (hdir : albumId ∈ st.dirs)
    (hnd : (album.images.map (fun im => im.id)).Nodup)
    (hcov : album.coverImage = some cv)
    (hx : x ∈ album.images)
    (hxw : cv.webp = x.sizes.grid.webp)
    (hxid : x.id ∈ imageIds) :
    ∃ album',
      (delete_images st albumId imageIds).2.albums.find?
          (fun a => a.id = albumId) = some album' ∧
      album'.coverImage = headGrid album'.images := by
  unfold delete_images
  split
  · rename_i heq
    rw [hfind] at heq
    exact Option.noConfusion heq
  rename_i a heq
  rw [hfind] at heq
  have ha := Option.some.inj heq
  subst ha
  rw [if_pos hdir]
  have hds : CoverTracks
      { images := album.images, cover := album.coverImage,
        files := st.files, success := true } imageIds :=
    Or.inr ⟨x, hx, hxid, cv, hcov, hxw⟩
  have hcover := delete_loop_tracks albumId imageIds
    { images := album.images, cover := album.coverImage,
      files := st.files, success := true } hnd hds
  exact ⟨_, find?_updateFirst _ albumId st.albums album (fun a => rfl) hfind,
    hcover⟩

/-- Witness for C4 at a concrete input: removing image `a`, the current
cover, from the sample album reassigns the cover to `b`'s grid variant. -/
theorem delete_images_cover_reassignment_witness :
    ∃ album',
      (delete_images exStore "alb" ["a"]).2.albums.find?
          (fun a => a.id = "alb") = some album' ∧
      album'.coverImage = headGrid album'.images :=
  delete_images_cover_reassignment exStore "alb" ["a"] exAlbum exImgA
    (exSizes "a").grid (by decide) (by decide) (by decide) (by decide)
    (by decide) (by decide) (by decide)

/-- Claim C2 as stated is false: a batch containing one id that is not in
the album is partially applied.  On the sample store, the batch
["zzz", "a"] reports failure, yet image `a` was removed from the album
record, the mutated record was saved, and `a`'s size-variant files were
deleted - the batch was neither fully applied nor rejected before any file
deletion. -/
theorem delete_images_not_transactional_cex :
    (delete_images exStore "alb" ["zzz", "a"]).1 = false ∧
    (delete_images exStore "alb" ["zzz", "a"]).2 ≠ exStore ∧
    (delete_images exStore "alb" ["zzz", "a"]).2.albums.find?
        (fun a => a.id = "alb") =
      some { exAlbum with
               images := [exImgB]
               coverImage := some (exSizes "b").grid } ∧
    ("alb", "images/grid/a.webp") ∈ exStore.files ∧
    ("alb", "images/grid/a.webp") ∉
      (delete_images exStore "alb" ["zzz", "a"]).2.files := by
  refine ⟨?_, ?_, ?_, ?_, ?_⟩ <;> decide

/-- Claim C2 amended: delete_images processes the batch per image id, not
as a transaction: every id present in the album has its size-variant files
deleted and is removed from the images list even when another id in the
batch is missing; a missing id only makes the returned flag False, and the
partially-mutated album record is saved regardless. -/
theorem delete_images_per_image_semantics
    (st : Store) (albumId : String) (imageIds : List String)
    (album : Album) (x : String)
    (hfind : st.albums.find? (fun a => a.id = albumId) = some album)
    (hdir : albumId ∈ st.dirs)
    (hsafe : album.coverImage ≠ none ∨ album.images = [])
    (hx : x ∈ imageIds)
    (hmiss : ∀ im ∈ album.images, im.id ≠ x) :
    (delete_images st albumId imageIds).1 = false ∧
    ∃ album',
      (delete_images st albumId imageIds).2.albums.find?
          (fun a => a.id = albumId) = some album' ∧
      album'.images = album.images.filter
        (fun im => decide (im.id ∉ imageIds)) := by
  unfold delete_images
  split
  · rename_i heq
    rw [hfind] at heq
    exact Option.noConfusion heq
  rename_i a heq
  rw [hfind] at heq
  have ha := Option.some.inj heq
  subst ha
  rw [if_pos hdir]
  have hsafe0 : CoverSafe
      { images := album.images, cover := album.coverImage,
        files := st.files, success := true } := hsafe
  obtain ⟨himg, _⟩ := delete_loop_spec albumId imageIds
    { images := album.images, cover := album.coverImage,
      files := st.files, success := true } hsafe0
  refine ⟨?_, ?_⟩
  · exact delete_loop_miss albumId imageIds
      { images := album.images, cover := album.coverImage,
        files := st.files, success := true } hsafe0 x hx hmiss
  · exact ⟨_, find?_updateFirst _ albumId st.albums album (fun a => rfl)
      hfind, himg⟩

/-- Witness for the amended C2 theorem on the sample store. -/
theorem delete_images_per_image_semantics_witness :
    (delete_images exStore "alb" ["zzz", "a"]).1 = false ∧
    ∃ album',
      (delete_images exStore "alb" ["zzz", "a"]).2.albums.find?
          (fun a => a.id = "alb") = some album' ∧
      album'.images = exAlbum.images.filter
        (fun im => decide (im.id ∉ (["zzz", "a"] : List String))) :=
  delete_images_per_image_semantics exStore "alb" ["zzz", "a"] exAlbum "zzz"
    (by decide) (by decide) (Or.inl (by decide)) (by decide) (by decide)
